import Mathlib

/-!
Verification of the journeyman NHL player-database aggregation pipeline
(`src/cli/src/main.rs`) against its natural-language specification.

The Rust source is shallowly embedded: pure logic becomes Lean functions,
network effects are modelled by explicit response environments, and the
uses of `HashMap`/`HashSet` are modelled by association lists with
insert-override semantics and by duplicate-free lists, with the
unspecified hash-iteration order exposed as an explicit enumeration
argument where it can influence the produced output.
-/

namespace Journeyman

/-- Output player record, from `struct PlayerInfo` in `src/cli/src/main.rs`. -/
structure PlayerInfo where
  id : String
  name : String
  birth_date : Option String
  birth_place : Option String
  position : Option String
deriving DecidableEq

/-- One row of the player search/directory response, from `struct PlayerSearchResult`. -/
structure PlayerSearchResult where
  player_id : String
  name : String
  position_code : String
  last_season_id : Option String
  active : Bool
deriving DecidableEq

/-- One season-totals entry of a player-landing response, from `struct SeasonTotal`. -/
structure SeasonTotal where
  season : Nat
  team_name : Option String
deriving DecidableEq

/-- Player-landing (detail) response, from `struct PlayerDetails`. -/
structure PlayerDetails where
  player_id : Nat
  first_name : String
  last_name : String
  birth_date : Option String
  birth_city : Option String
  birth_country : Option String
  position : Option String
  height_in_inches : Option Nat
  weight_in_pounds : Option Nat
  current_team_abbrev : Option String
  season_totals : Option (List SeasonTotal)
deriving DecidableEq

/-- The 32 current NHL team codes, from `const CURRENT_TEAM_CODES`. -/
def CURRENT_TEAM_CODES : List String :=
  ["ANA", "BOS", "BUF", "CGY", "CAR", "CHI", "COL", "CBJ", "DAL", "DET",
   "EDM", "FLA", "LAK", "MIN", "MTL", "NSH", "NJD", "NYI", "NYR", "OTT",
   "PHI", "PIT", "SJS", "SEA", "STL", "TBL", "TOR", "UTA", "VAN", "VGK",
   "WSH", "WPG"]

/-- The 11 historical team codes, from `const HISTORICAL_TEAM_CODES`. -/
def HISTORICAL_TEAM_CODES : List String :=
  ["ATL", "HFD", "QUE", "MNS", "CLR", "KCS", "ATF", "WPG1", "PHX", "ARI", "MIG"]

/-- Relocation entries inserted by `get_team_mapping`, in source insertion order. -/
def relocationPairs : List (String × String) :=
  [("ATL", "WPG"), ("HFD", "CAR"), ("QUE", "COL"), ("MNS", "DAL"), ("CLR", "NJD"),
   ("KCS", "NJD"), ("ATF", "CGY"), ("WPG1", "UTA"), ("PHX", "UTA"), ("ARI", "UTA"),
   ("MIG", "ANA")]

/-- HashMap insertion: a later insert for the same key overrides an earlier one. -/
def mapInsert (m : String → Option String) (kv : String × String) : String → Option String :=
  fun x => if x = kv.1 then some kv.2 else m x

/-- Team relocation mapping built by `fn get_team_mapping`: the relocation table
followed by an identity entry for every current team code. -/
def get_team_mapping : String → Option String :=
  (relocationPairs ++ CURRENT_TEAM_CODES.map (fun t => (t, t))).foldl mapInsert (fun _ => none)

/-- All team codes fetched by the legacy strategy, from `fn get_all_team_codes`. -/
def get_all_team_codes : List String :=
  CURRENT_TEAM_CODES ++ HISTORICAL_TEAM_CODES

/-- Boolean check that a code canonicalizes into the current set, idempotently. -/
def canonOk (c : String) : Bool :=
  match get_team_mapping c with
  | some r => decide (r ∈ CURRENT_TEAM_CODES) && decide (get_team_mapping r = some r)
  | none => false

/-- C3: for every team code in the union of the historical and current sets,
canonicalization via the team mapping is defined, lands in the current set, and
is idempotent. -/
theorem canonicalize_defined_current_idempotent (c : String)
    (hc : c ∈ HISTORICAL_TEAM_CODES ++ CURRENT_TEAM_CODES) :
    ∃ r, get_team_mapping c = some r ∧ r ∈ CURRENT_TEAM_CODES ∧
      get_team_mapping r = some r := by
  have hall : (HISTORICAL_TEAM_CODES ++ CURRENT_TEAM_CODES).all canonOk = true := by decide
  have hb : canonOk c = true := by
    have := List.all_eq_true.mp hall
    exact this c hc
  unfold canonOk at hb
  cases hm : get_team_mapping c with
  | none => rw [hm] at hb; cases hb
  | some r =>
    rw [hm] at hb
    have h₁ := (Bool.and_eq_true _ _).mp hb
    exact ⟨r, rfl, of_decide_eq_true h₁.1, of_decide_eq_true h₁.2⟩

/-- Witness for C3 at the concrete historical code "ATL". -/
theorem canonicalize_defined_current_idempotent_witness :
    ∃ r, get_team_mapping "ATL" = some r ∧ r ∈ CURRENT_TEAM_CODES ∧
      get_team_mapping r = some r :=
  canonicalize_defined_current_idempotent "ATL" (by decide)

/-- Game entry of a schedule response, from `struct GameInfo` (`abbrev` fields of
`awayTeam`/`homeTeam` inlined from `struct TeamGameInfo`). -/
structure GameInfo where
  id : Nat
  away_team : String
  home_team : String
deriving DecidableEq

/-- Schedule response, from `struct ScheduleResponse`. -/
structure ScheduleResponse where
  games : List GameInfo
deriving DecidableEq

/-- Outcome of one HTTP `send()`: a transport-level error, or a response with a
status code and a body. -/
inductive HttpReply where
  | transportErr (msg : String)
  | response (status : Nat) (body : String)
deriving DecidableEq

/-- Network environment for the schedule fetcher: the reply obtained for each
URL, and the result of serde-parsing a body into `ScheduleResponse`. -/
structure ScheduleEnv where
  reply : String → HttpReply
  parseSchedule : String → Option ScheduleResponse

/-- Status check `response.status().is_success()`: a 2xx status. -/
def isSuccess (s : Nat) : Bool := 200 ≤ s && s < 300

/-- The three endpoint templates of `fetch_team_schedule`, in source order. -/
def scheduleUrls (team_code season : String) : List String :=
  ["https://api-web.nhle.com/v1/club-schedule-season/" ++ team_code ++ "/" ++ season,
   "https://api-web.nhle.com/v1/schedule/" ++ team_code ++ "/" ++ season,
   "https://statsapi.web.nhl.com/api/v1/teams/" ++ team_code ++ "/schedule?season=" ++ season]

/-- Failure value of the schedule fetcher: a propagated transport error (the
`send().await?` path), or the aggregate "All schedule API endpoints failed for
TEAM/SEASON" error produced after the template list is exhausted. -/
inductive FetchErr where
  | transport (msg : String)
  | allFailed (team_code season : String)
deriving DecidableEq

/-- Loop body of `fetch_team_schedule` over the remaining URLs, also counting
issued requests: a transport error is propagated immediately by `?`; a
non-success status or an unparsable successful body moves on to the next URL. -/
def fetchScheduleGo (env : ScheduleEnv) (team_code season : String) :
    List String → Nat → Except FetchErr ScheduleResponse × Nat
  | [], n => (.error (.allFailed team_code season), n)
  | url :: rest, n =>
    match env.reply url with
    | .transportErr m => (.error (.transport m), n + 1)
    | .response status body =>
      if isSuccess status then
        match env.parseSchedule body with
        | some sched => (.ok sched, n + 1)
        | none => fetchScheduleGo env team_code season rest (n + 1)
      else fetchScheduleGo env team_code season rest (n + 1)

/-- Model of `fn fetch_team_schedule`, returning the result together with the
number of requests issued. -/
def fetch_team_schedule (env : ScheduleEnv) (team_code season : String) :
    Except FetchErr ScheduleResponse × Nat :=
  fetchScheduleGo env team_code season (scheduleUrls team_code season) 0

/-- Soft failure of one template: the request got a response (no transport
error) but either the status was non-2xx or the successful body did not parse. -/
def softFails (env : ScheduleEnv) (url : String) : Bool :=
  match env.reply url with
  | .transportErr _ => false
  | .response status body =>
    if isSuccess status then (env.parseSchedule body).isNone else true

/-- C6: if the first two schedule templates return non-success statuses and the
third returns a success status whose body parses as a schedule, the fetcher
returns that parsed schedule and issues exactly three requests. -/
theorem schedule_fallback_third_succeeds (env : ScheduleEnv) (team_code season : String)
    (s₁ b₁ s₂ b₂ s₃ b₃ : _) (sched : ScheduleResponse)
    (h₁ : env.reply ((scheduleUrls team_code season).get ⟨0, by simp [scheduleUrls]⟩) =
      .response s₁ b₁)
    (h₁s : isSuccess s₁ = false)
    (h₂ : env.reply ((scheduleUrls team_code season).get ⟨1, by simp [scheduleUrls]⟩) =
      .response s₂ b₂)
    (h₂s : isSuccess s₂ = false)
    (h₃ : env.reply ((scheduleUrls team_code season).get ⟨2, by simp [scheduleUrls]⟩) =
      .response s₃ b₃)
    (h₃s : isSuccess s₃ = true)
    (h₃p : env.parseSchedule b₃ = some sched) :
    fetch_team_schedule env team_code season = (.ok sched, 3) := by
  simp [scheduleUrls] at h₁ h₂ h₃
  simp [fetch_team_schedule, scheduleUrls, fetchScheduleGo, h₁, h₂, h₃, h₁s, h₂s, h₃s, h₃p]

/-- Concrete environment for the C6 witness: 404 then 500, then a 200 whose
body "ok" parses into the empty schedule. -/
def env6 : ScheduleEnv where
  reply url :=
    if url = "https://api-web.nhle.com/v1/club-schedule-season/TOR/20152016" then
      .response 404 "not found"
    else if url = "https://api-web.nhle.com/v1/schedule/TOR/20152016" then
      .response 500 "oops"
    else
      .response 200 "ok"
  parseSchedule body := if body = "ok" then some ⟨[]⟩ else none

/-- Witness for C6 on `env6`. -/
theorem schedule_fallback_third_succeeds_witness :
    fetch_team_schedule env6 "TOR" "20152016" = (.ok ⟨[]⟩, 3) :=
  schedule_fallback_third_succeeds env6 "TOR" "20152016" 404 "not found" 500 "oops" 200 "ok" ⟨[]⟩
    (by decide) (by decide) (by decide) (by decide) (by decide) (by decide) (by decide)

/-- Concrete environment for the C7 counterexample: the very first template
fails with a transport error. -/
def env7 : ScheduleEnv where
  reply _ := .transportErr "connection refused"
  parseSchedule _ := none

/-- C7 counterexample: with every template failing (the first by transport
error), the fetcher does not try each template and does not return the
aggregate failure: it propagates the transport error after a single request. -/
theorem schedule_all_fail_counterexample :
    fetch_team_schedule env7 "TOR" "20152016" = (.error (.transport "connection refused"), 1) ∧
    (.error (.transport "connection refused"), 1) ≠
      ((.error (.allFailed "TOR" "20152016"), 3) : Except FetchErr ScheduleResponse × Nat) := by
  refine ⟨rfl, ?_⟩
  intro h
  simp at h

/-- C7 as amended: if every template fails softly (non-success status, or a
successful status with an unparsable body), the fetcher tries each of the three
templates in order and returns the single aggregate failure naming the team and
season; and a transport error is propagated as soon as it occurs, without
trying the remaining templates. -/
theorem schedule_all_fail_amended :
    (∀ (env : ScheduleEnv) (team_code season : String),
      (∀ url ∈ scheduleUrls team_code season, softFails env url = true) →
      fetch_team_schedule env team_code season = (.error (.allFailed team_code season), 3)) ∧
    (∀ (env : ScheduleEnv) (team_code season m : String) (url : String) (rest : List String)
      (n : Nat), env.reply url = .transportErr m →
      fetchScheduleGo env team_code season (url :: rest) n = (.error (.transport m), n + 1)) := by
  constructor
  · intro env team_code season h
    have h₁ := h ("https://api-web.nhle.com/v1/club-schedule-season/" ++ team_code
      ++ "/" ++ season) (by simp [scheduleUrls])
    have h₂ := h ("https://api-web.nhle.com/v1/schedule/" ++ team_code
      ++ "/" ++ season) (by simp [scheduleUrls])
    have h₃ := h ("https://statsapi.web.nhl.com/api/v1/teams/" ++ team_code
      ++ "/schedule?season=" ++ season) (by simp [scheduleUrls])
    unfold softFails at h₁ h₂ h₃
    simp only [fetch_team_schedule, scheduleUrls, fetchScheduleGo]
    cases hr₁ : env.reply ("https://api-web.nhle.com/v1/club-schedule-season/" ++ team_code
        ++ "/" ++ season) with
    | transportErr m => rw [hr₁] at h₁; cases h₁
    | response s₁ b₁ =>
      rw [hr₁] at h₁
      cases hr₂ : env.reply ("https://api-web.nhle.com/v1/schedule/" ++ team_code
          ++ "/" ++ season) with
      | transportErr m => rw [hr₂] at h₂; cases h₂
      | response s₂ b₂ =>
        rw [hr₂] at h₂
        cases hr₃ : env.reply ("https://statsapi.web.nhl.com/api/v1/teams/" ++ team_code
            ++ "/schedule?season=" ++ season) with
        | transportErr m => rw [hr₃] at h₃; cases h₃
        | response s₃ b₃ =>
          rw [hr₃] at h₃
          by_cases hs₁ : isSuccess s₁ = true <;>
            by_cases hs₂ : isSuccess s₂ = true <;>
              by_cases hs₃ : isSuccess s₃ = true <;>
          simp_all [Option.isNone_iff_eq_none]
  · intro env team_code season m url rest n h
    simp [fetchScheduleGo, h]

/-- Concrete environment for the C7-amended witness: all three templates return
non-success statuses. -/
def env7a : ScheduleEnv where
  reply _ := .response 404 "not found"
  parseSchedule _ := none

/-- Witness for the amended C7 on `env7a`. -/
theorem schedule_all_fail_amended_witness :
    fetch_team_schedule env7a "TOR" "20152016" =
      (.error (.allFailed "TOR" "20152016"), 3) :=
  schedule_all_fail_amended.1 env7a "TOR" "20152016" (by decide)

/-- Static team full-name → team-code table from the `team_codes` HashMap in
`build_database_from_player_search`, in source insertion order. -/
def teamCodesPairs : List (String × String) :=
  [("Anaheim Ducks", "ANA"), ("Boston Bruins", "BOS"), ("Buffalo Sabres", "BUF"),
   ("Calgary Flames", "CGY"), ("Carolina Hurricanes", "CAR"), ("Chicago Blackhawks", "CHI"),
   ("Colorado Avalanche", "COL"), ("Columbus Blue Jackets", "CBJ"), ("Dallas Stars", "DAL"),
   ("Detroit Red Wings", "DET"), ("Edmonton Oilers", "EDM"), ("Florida Panthers", "FLA"),
   ("Los Angeles Kings", "LAK"), ("Minnesota Wild", "MIN"), ("Montréal Canadiens", "MTL"),
   ("Nashville Predators", "NSH"), ("New Jersey Devils", "NJD"), ("New York Islanders", "NYI"),
   ("New York Rangers", "NYR"), ("Ottawa Senators", "OTT"), ("Philadelphia Flyers", "PHI"),
   ("Pittsburgh Penguins", "PIT"), ("San Jose Sharks", "SJS"), ("Seattle Kraken", "SEA"),
   ("St. Louis Blues", "STL"), ("Tampa Bay Lightning", "TBL"), ("Toronto Maple Leafs", "TOR"),
   ("Utah Hockey Club", "UTA"), ("Vancouver Canucks", "VAN"), ("Vegas Golden Knights", "VGK"),
   ("Washington Capitals", "WSH"), ("Winnipeg Jets", "WPG"),
   ("Atlanta Thrashers", "ATL"), ("Hartford Whalers", "HFD"), ("Quebec Nordiques", "QUE"),
   ("Minnesota North Stars", "MNS"), ("Colorado Rockies", "CLR"), ("Kansas City Scouts", "KCS"),
   ("Atlanta Flames", "ATF"), ("Phoenix Coyotes", "PHX"), ("Arizona Coyotes", "ARI"),
   ("Mighty Ducks of Anaheim", "MIG"), ("Winnipeg Jets (1979)", "WPG1")]

/-- Lookup in the full-name → code HashMap of `build_database_from_player_search`. -/
def team_codes : String → Option String :=
  teamCodesPairs.foldl mapInsert (fun _ => none)

/-- Birth-place composition from `build_database_from_player_search`: "City,
Country" when both are present, the country alone when the city is absent, and
nothing otherwise. -/
def birthPlace (d : PlayerDetails) : Option String :=
  match d.birth_city, d.birth_country with
  | some city, some country => some (city ++ ", " ++ country)
  | none, some country => some country
  | _, _ => none

/-- Construction of the output `PlayerInfo` for one fetched detail record. -/
def mkPlayerInfo (d : PlayerDetails) : PlayerInfo where
  id := Nat.repr d.player_id
  name := d.first_name ++ " " ++ d.last_name
  birth_date := d.birth_date
  birth_place := birthPlace d
  position := d.position

/-- Season start year: `season_total.season / 10000`. -/
def seasonStartYear (season : Nat) : Nat := season / 10000

/-- Per-entry step of the season-totals loop: an entry contributes its mapped
team code when its start year is inside the configured range and its team full
name is in the static table; the accumulated codes form a set. -/
def teamStep (start_year end_year : Nat) (acc : List String) (st : SeasonTotal) :
    List String :=
  if start_year ≤ seasonStartYear st.season ∧ seasonStartYear st.season ≤ end_year then
    match st.team_name with
    | some tn =>
      match team_codes tn with
      | some code => if code ∈ acc then acc else acc ++ [code]
      | none => acc
    | none => acc
  else acc

/-- The set of team codes a player contributes to (`player_teams` in the
source), as a duplicate-free list in first-encounter order. -/
def playerTeams (d : PlayerDetails) (start_year end_year : Nat) : List String :=
  (d.season_totals.getD []).foldl (teamStep start_year end_year) []

/-- The accumulating `HashMap<String, HashSet<PlayerInfo>>`, as an association
list whose values are duplicate-free lists in insertion order. -/
abbrev Buckets : Type := List (String × List PlayerInfo)

/-- HashSet insertion: adds the record only when it is not already present. -/
def hsInsert (s : List PlayerInfo) (p : PlayerInfo) : List PlayerInfo :=
  if p ∈ s then s else s ++ [p]

/-- Insertion through `consolidated_database.get_mut(team)`: mutates the entry
when the key is present and does nothing otherwise. -/
def bucketsInsert (db : Buckets) (team : String) (p : PlayerInfo) : Buckets :=
  (db : List (String × List PlayerInfo)).map fun x =>
    if x.1 = team then (x.1, hsInsert x.2 p) else x

/-- Per-player body of the directory-strategy loop: build the record, collect
its in-range team codes, canonicalize each through the team mapping, and insert
the record into each canonical team's bucket. -/
def processPlayer (db : Buckets) (start_year end_year : Nat) (d : PlayerDetails) : Buckets :=
  let p := mkPlayerInfo d
  (playerTeams d start_year end_year).foldl
    (fun db code =>
      match get_team_mapping code with
      | some cur => bucketsInsert db cur p
      | none => db) db

/-- Initial database: one empty bucket per current team code. -/
def initBuckets : Buckets :=
  CURRENT_TEAM_CODES.map (fun t => (t, ([] : List PlayerInfo)))

/-- Response environment for the directory strategy: the outcome of the single
player-search request, and the outcome of the detail request for each player id. -/
structure DirEnv where
  search_response : Except String (List PlayerSearchResult)
  details : String → Except String PlayerDetails

/-- One iteration of the directory-strategy player loop: a failing detail
request skips that player only. -/
def detailStep (env : DirEnv) (start_year end_year : Nat) (db : Buckets)
    (pr : PlayerSearchResult) : Buckets :=
  match env.details pr.player_id with
  | .ok d => processPlayer db start_year end_year d
  | .error _ => db

/-- Model of `fn build_database_from_player_search`: a failing search request is
propagated; each found player is then processed in order. -/
def build_database_from_player_search (env : DirEnv) (start_year end_year : Nat) :
    Except String Buckets :=
  match env.search_response with
  | .error e => .error e
  | .ok all_players =>
    .ok (all_players.foldl (detailStep env start_year end_year) initBuckets)

/-- Number of outbound requests issued by the directory strategy: the search
request itself plus one detail request per returned player. -/
def dirRequestCount (env : DirEnv) : Nat :=
  match env.search_response with
  | .error _ => 1
  | .ok all_players => 1 + all_players.length

/-- Command-line configuration, from `struct Cli`. -/
structure Cli where
  output : String
  delay : Nat
  start_year : Nat
  end_year : Nat
  include_games : Bool
  use_player_search : Bool

/-- Final serialized document, from `struct PlayerDatabase`. -/
structure PlayerDatabase where
  teams : List (String × List PlayerInfo)
  generated_at : String
  seasons_covered : List String
deriving DecidableEq

/-- Lexicographic comparison of character lists by code point; on UTF-8 data
this is the byte order used by Rust's `str::cmp`. -/
def listLe : List Char → List Char → Bool
  | [], _ => true
  | _ :: _, [] => false
  | a :: as, b :: bs =>
    if a.toNat < b.toNat then true
    else if b.toNat < a.toNat then false
    else listLe as bs

/-- String comparison used by the final sort, `a.name.cmp(&b.name)`. -/
def strLe (a b : String) : Bool := listLe a.data b.data

/-- Sort relation of the final per-team lists: ascending display name. -/
def byName (a b : PlayerInfo) : Prop := strLe a.name b.name = true

instance : DecidableRel byName :=
  fun a b => inferInstanceAs (Decidable (strLe a.name b.name = true))

/-- Unfolding of `listLe` on two nonempty lists. -/
theorem listLe_cons_iff {a b : Char} {as bs : List Char} :
    listLe (a :: as) (b :: bs) = true ↔
      a.toNat < b.toNat ∨ (a.toNat = b.toNat ∧ listLe as bs = true) := by
  show (if a.toNat < b.toNat then true
    else if b.toNat < a.toNat then false else listLe as bs) = true ↔ _
  by_cases h₁ : a.toNat < b.toNat
  · simp [h₁]
  · by_cases h₂ : b.toNat < a.toNat
    · rw [if_neg h₁, if_pos h₂]
      simp only [Bool.false_eq_true, false_iff]
      rintro (h | ⟨h, _⟩)
      · exact h₁ h
      · omega
    · have heq : a.toNat = b.toNat := le_antisymm (not_lt.mp h₂) (not_lt.mp h₁)
      rw [if_neg h₁, if_neg h₂]
      simp [heq]

/-- Totality of the lexicographic comparison. -/
theorem listLe_total : ∀ as bs : List Char, listLe as bs = true ∨ listLe bs as = true
  | [], _ => Or.inl rfl
  | _ :: _, [] => Or.inr rfl
  | a :: as, b :: bs => by
    rcases Nat.lt_trichotomy a.toNat b.toNat with h | h | h
    · exact Or.inl (listLe_cons_iff.mpr (Or.inl h))
    · rcases listLe_total as bs with h' | h'
      · exact Or.inl (listLe_cons_iff.mpr (Or.inr ⟨h, h'⟩))
      · exact Or.inr (listLe_cons_iff.mpr (Or.inr ⟨h.symm, h'⟩))
    · exact Or.inr (listLe_cons_iff.mpr (Or.inl h))

/-- Transitivity of the lexicographic comparison. -/
theorem listLe_trans : ∀ as bs cs : List Char,
    listLe as bs = true → listLe bs cs = true → listLe as cs = true
  | [], _, _ => fun _ _ => rfl
  | _ :: _, [], _ => fun h _ => by cases h
  | _ :: _, _ :: _, [] => fun _ h => by cases h
  | a :: as, b :: bs, c :: cs => fun h₁ h₂ => by
    rcases listLe_cons_iff.mp h₁ with h₁ | ⟨h₁, h₁'⟩ <;>
      rcases listLe_cons_iff.mp h₂ with h₂ | ⟨h₂, h₂'⟩
    · exact listLe_cons_iff.mpr (Or.inl (lt_trans h₁ h₂))
    · exact listLe_cons_iff.mpr (Or.inl (h₂ ▸ h₁))
    · exact listLe_cons_iff.mpr (Or.inl (h₁ ▸ h₂))
    · exact listLe_cons_iff.mpr (Or.inr ⟨h₁.trans h₂, listLe_trans as bs cs h₁' h₂'⟩)

/-- Antisymmetry of the lexicographic comparison. -/
theorem listLe_antisymm : ∀ as bs : List Char,
    listLe as bs = true → listLe bs as = true → as = bs
  | [], [] => fun _ _ => rfl
  | [], _ :: _ => fun _ h => by cases h
  | _ :: _, [] => fun h _ => by cases h
  | a :: as, b :: bs => fun h₁ h₂ => by
    rcases listLe_cons_iff.mp h₁ with h₁ | ⟨h₁, h₁'⟩ <;>
      rcases listLe_cons_iff.mp h₂ with h₂ | ⟨h₂, h₂'⟩
    · exact absurd h₂ (lt_asymm h₁)
    · omega
    · omega
    · have hab : a = b := by
        have := congrArg Char.ofNat h₁
        rwa [Char.ofNat_toNat, Char.ofNat_toNat] at this
      rw [hab, listLe_antisymm as bs h₁' h₂']

instance : IsTotal PlayerInfo byName :=
  ⟨fun a b => by
    unfold byName strLe
    exact listLe_total a.name.data b.name.data⟩

instance : IsTrans PlayerInfo byName :=
  ⟨fun a b c h₁ h₂ => listLe_trans a.name.data b.name.data c.name.data h₁ h₂⟩

/-- String-level sort relation induced on display names. -/
def nameLe (a b : String) : Prop := strLe a b = true

instance : IsAntisymm String nameLe :=
  ⟨fun a b h₁ h₂ => String.ext (listLe_antisymm a.data b.data h₁ h₂)⟩

instance : IsTrans String nameLe :=
  ⟨fun a b c h₁ h₂ => listLe_trans a.data b.data c.data h₁ h₂⟩

/-- Conversion of the accumulated buckets into the serialized team lists: each
HashSet is enumerated in an unspecified order (the `iter` argument) and then
stably sorted ascending by player name. -/
def finalizeTeams (db : Buckets) (iter : String → List PlayerInfo → List PlayerInfo) :
    List (String × List PlayerInfo) :=
  (db : List (String × List PlayerInfo)).map fun x =>
    (x.1, List.insertionSort byName (iter x.1 x.2))

/-- Seasons metadata list: `(start_year..=end_year).map(|y| format!("{}{}", y, y+1))`. -/
def seasonsList (start_year end_year : Nat) : List String :=
  (List.range' start_year (end_year + 1 - start_year)).map
    (fun y => Nat.repr y ++ Nat.repr (y + 1))

/-- Observable outcome of `fn main`: the serialized database, the
`std::process::exit(1)` taken on the disabled legacy branch, or a propagated
fatal error. -/
inductive MainOutcome where
  | wrote (db : PlayerDatabase)
  | exitedDisabled (code : Nat)
  | failed (msg : String)
deriving DecidableEq

/-- Model of `fn main`: with player-search mode on it runs the directory
strategy and serializes; with it off it reports the legacy approach disabled
and exits with status 1 before any aggregation. -/
def runMain (cli : Cli) (env : DirEnv)
    (iter : String → List PlayerInfo → List PlayerInfo) (now : String) : MainOutcome :=
  if cli.use_player_search then
    match build_database_from_player_search env cli.start_year cli.end_year with
    | .error e => .failed e
    | .ok db =>
      .wrote { teams := finalizeTeams db iter
               generated_at := now
               seasons_covered := seasonsList cli.start_year cli.end_year }
  else .exitedDisabled 1

/-- Number of outbound requests a `main` run issues. -/
def runRequests (cli : Cli) (env : DirEnv) : Nat :=
  if cli.use_player_search then dirRequestCount env else 0

/-- The teams map of a run's output, when the run produced one. -/
def producedTeams (o : MainOutcome) : Option (List (String × List PlayerInfo)) :=
  match o with
  | .wrote db => some db.teams
  | _ => none

/-- One team's serialized player list, when the run produced an output holding
that team key. -/
def lookupTeam (o : MainOutcome) (team : String) : Option (List PlayerInfo) :=
  (producedTeams o).bind fun ts => ts.lookup team

/-- Identity equality from §3 of the specification: by id when both records
carry one, otherwise by case-insensitive display name. -/
def sameIdentity (a b : PlayerInfo) : Bool :=
  if a.id ≠ "" ∧ b.id ≠ "" then a.id = b.id else a.name.toLower = b.name.toLower

/-- Enumeration function that returns the accumulated set in insertion order. -/
def idIter : String → List PlayerInfo → List PlayerInfo := fun _ s => s

/-- Enumeration function that returns the accumulated set in reversed order;
any enumeration order of a HashSet is permitted. -/
def revIter : String → List PlayerInfo → List PlayerInfo := fun _ s => s.reverse

/-- Default configuration of `struct Cli` with player-search mode on. -/
def cfgDefault : Cli where
  output := "nhl_players.json"
  delay := 100
  start_year := 2015
  end_year := 2025
  include_games := false
  use_player_search := true

/-- A fold preserves any invariant preserved by each step on list elements. -/
theorem foldl_preserve {α β : Type} {P : β → Prop} (f : β → α → β)
    (l : List α) (b : β) (hb : P b) (hf : ∀ a ∈ l, ∀ c, P c → P (f c a)) :
    P (l.foldl f b) := by
  induction l generalizing b with
  | nil => exact hb
  | cons a l ih =>
    exact ih (f b a) (hf a (by simp) b hb) (fun a' ha' => hf a' (by simp [ha']))

/-- Inserting a player leaves the bucket keys unchanged. -/
theorem bucketsInsert_keys (db : Buckets) (t : String) (p : PlayerInfo) :
    (bucketsInsert db t p).map Prod.fst =
      (db : List (String × List PlayerInfo)).map Prod.fst := by
  induction db with
  | nil => rfl
  | cons x xs ih =>
    by_cases h : x.1 = t <;> simp [bucketsInsert, h] at ih ⊢ <;> exact ih

/-- Processing one player leaves the bucket keys unchanged. -/
theorem processPlayer_keys (db : Buckets) (start_year end_year : Nat) (d : PlayerDetails) :
    (processPlayer db start_year end_year d).map Prod.fst =
      (db : List (String × List PlayerInfo)).map Prod.fst := by
  unfold processPlayer
  refine foldl_preserve
    (P := fun b => (b : List (String × List PlayerInfo)).map Prod.fst =
      (db : List (String × List PlayerInfo)).map Prod.fst) _ _ db rfl ?_
  intro code _ c hc
  cases hm : get_team_mapping code with
  | none => simpa [hm] using hc
  | some cur => simpa [hm, bucketsInsert_keys] using hc

/-- Finalization leaves the bucket keys unchanged. -/
theorem finalizeTeams_keys (db : Buckets)
    (iter : String → List PlayerInfo → List PlayerInfo) :
    (finalizeTeams db iter).map Prod.fst =
      (db : List (String × List PlayerInfo)).map Prod.fst := by
  simp [finalizeTeams]

/-- The initial buckets carry exactly the current team codes as keys. -/
theorem initBuckets_keys :
    (initBuckets : List (String × List PlayerInfo)).map Prod.fst = CURRENT_TEAM_CODES := rfl

/-- Whatever the detail responses, the built database keeps exactly the
current-team keys. -/
theorem buildFold_keys (env : DirEnv) (start_year end_year : Nat)
    (players : List PlayerSearchResult) :
    ((players.foldl (detailStep env start_year end_year) initBuckets) :
        List (String × List PlayerInfo)).map Prod.fst = CURRENT_TEAM_CODES := by
  refine foldl_preserve
    (P := fun b => (b : List (String × List PlayerInfo)).map Prod.fst = CURRENT_TEAM_CODES)
    _ _ _ initBuckets_keys ?_
  intro pr _ c hc
  cases hd : env.details pr.player_id with
  | ok d => simpa [detailStep, hd, processPlayer_keys] using hc
  | error e => simpa [detailStep, hd] using hc

/-- C1 counterexample: with player-search mode off, the driver exits with
status 1 on the concrete default-like configuration; it does not run the
legacy aggregation and serializes no output document. -/
theorem legacy_toggle_counterexample :
    runMain { cfgDefault with use_player_search := false }
        { search_response := .ok [], details := fun _ => .error "HTTP 404" }
        idIter "2025-10-12T00:00:00Z" = .exitedDisabled 1 ∧
    producedTeams (runMain { cfgDefault with use_player_search := false }
        { search_response := .ok [], details := fun _ => .error "HTTP 404" }
        idIter "2025-10-12T00:00:00Z") = none :=
  ⟨rfl, rfl⟩

/-- C1 as amended: whenever the configuration toggle selects the legacy
strategy (player-search mode off), the driver does not run any aggregation
strategy: it reports the legacy approach as disabled and exits with status 1,
producing no output document. -/
theorem legacy_toggle_amended (cli : Cli) (env : DirEnv)
    (iter : String → List PlayerInfo → List PlayerInfo) (now : String)
    (h : cli.use_player_search = false) :
    runMain cli env iter now = .exitedDisabled 1 ∧
    producedTeams (runMain cli env iter now) = none := by
  unfold runMain
  rw [h]
  exact ⟨rfl, rfl⟩

/-- Witness for the amended C1 on a concrete configuration and environment. -/
theorem legacy_toggle_amended_witness :
    runMain { cfgDefault with use_player_search := false }
        { search_response := .ok [], details := fun _ => .error "HTTP 404" }
        idIter "now" = .exitedDisabled 1 ∧
    producedTeams (runMain { cfgDefault with use_player_search := false }
        { search_response := .ok [], details := fun _ => .error "HTTP 404" }
        idIter "now") = none :=
  legacy_toggle_amended { cfgDefault with use_player_search := false }
    { search_response := .ok [], details := fun _ => .error "HTTP 404" }
    idIter "now" rfl

/-- Environment in which every outbound request fails: the initial player
search already fails. -/
def envAllFail : DirEnv where
  search_response := .error "connection refused"
  details := fun _ => .error "connection refused"

/-- C2 counterexample: in a run where every outbound request fails, the first
failure is the player-search request, the driver propagates it as a fatal
error, and no output document (hence no teams map at all) is produced. -/
theorem teams_keys_counterexample :
    runMain cfgDefault envAllFail idIter "now" = .failed "connection refused" ∧
    producedTeams (runMain cfgDefault envAllFail idIter "now") = none :=
  ⟨rfl, rfl⟩

/-- C2 as amended: in every run whose initial player-directory request
succeeds — even if every per-player detail request fails — the output's teams
map contains exactly one key per current franchise (all 32 codes, each a
possibly empty list) and no other key. -/
theorem teams_keys_amended (cli : Cli) (env : DirEnv)
    (iter : String → List PlayerInfo → List PlayerInfo) (now : String)
    (players : List PlayerSearchResult)
    (hps : cli.use_player_search = true)
    (hok : env.search_response = .ok players) :
    (producedTeams (runMain cli env iter now)).map (List.map Prod.fst) =
      some CURRENT_TEAM_CODES := by
  unfold runMain build_database_from_player_search
  rw [hps, hok]
  simp only [if_true, producedTeams]
  rw [Option.map_some', finalizeTeams_keys]
  exact congrArg some (buildFold_keys env cli.start_year cli.end_year players)

/-- Directory row used by witnesses: the search finds one player. -/
def prJohn : PlayerSearchResult where
  player_id := "1"
  name := "John Doe"
  position_code := "C"
  last_season_id := none
  active := true

/-- Environment where the search succeeds but the only detail request fails. -/
def envDetailFail : DirEnv where
  search_response := .ok [prJohn]
  details := fun _ => .error "HTTP 503"

/-- Witness for the amended C2 on a run where the single detail request fails. -/
theorem teams_keys_amended_witness :
    (producedTeams (runMain cfgDefault envDetailFail idIter "now")).map
      (List.map Prod.fst) = some CURRENT_TEAM_CODES :=
  teams_keys_amended cfgDefault envDetailFail idIter "now" [prJohn] rfl rfl

/-- With an empty season range, each season-totals entry contributes nothing. -/
theorem foldl_teamStep_id (start_year end_year : Nat) (h : end_year < start_year) :
    ∀ (sts : List SeasonTotal) (acc : List String),
      sts.foldl (teamStep start_year end_year) acc = acc := by
  intro sts
  induction sts with
  | nil => intro acc; rfl
  | cons st sts ih =>
    intro acc
    have hst : teamStep start_year end_year acc st = acc := by
      unfold teamStep
      rw [if_neg]
      intro ⟨h₁, h₂⟩
      exact absurd (le_trans h₁ h₂) (not_le.mpr h)
    rw [List.foldl_cons, hst, ih]

/-- With an empty season range, a player contributes to no team. -/
theorem playerTeams_empty_of_invalid_range (d : PlayerDetails) (start_year end_year : Nat)
    (h : end_year < start_year) : playerTeams d start_year end_year = [] :=
  foldl_teamStep_id start_year end_year h _ []

/-- With an empty season range, processing a player leaves the buckets alone. -/
theorem processPlayer_id_of_invalid_range (db : Buckets) (start_year end_year : Nat)
    (d : PlayerDetails) (h : end_year < start_year) :
    processPlayer db start_year end_year d = db := by
  unfold processPlayer
  rw [playerTeams_empty_of_invalid_range d start_year end_year h]
  rfl

/-- Lookup in a list of constant-empty buckets only ever yields the empty list. -/
theorem lookup_const_nil (ts : List String) (t : String) (s : List PlayerInfo)
    (h : (ts.map (fun x => (x, ([] : List PlayerInfo)))).lookup t = some s) : s = [] := by
  induction ts with
  | nil => cases h
  | cons a ts ih =>
    rw [List.map_cons, List.lookup] at h
    by_cases ha : (t == a) = true
    · rw [ha] at h; cases h; rfl
    · rw [Bool.not_eq_true] at ha
      rw [ha] at h
      exact ih h

/-- Lookup after a key-preserving value transformation of an association list. -/
theorem lookup_map_val (f : String → List PlayerInfo → List PlayerInfo)
    (db : Buckets) (t : String) :
    ((db : List (String × List PlayerInfo)).map fun x => (x.1, f x.1 x.2)).lookup t =
      ((db : List (String × List PlayerInfo)).lookup t).map (fun s => f t s) := by
  induction db with
  | nil => rfl
  | cons x xs ih =>
    obtain ⟨k, v⟩ := x
    rw [List.map_cons, List.lookup, List.lookup]
    by_cases h : t = k
    · subst h; simp
    · have hb : (t == k) = false := beq_eq_false_iff_ne.mpr h
      rw [hb]
      exact ih

/-- The finalized list of one team, recovered from its accumulated bucket. -/
theorem lookupTeam_eq (cli : Cli) (env : DirEnv)
    (iter : String → List PlayerInfo → List PlayerInfo) (now team : String)
    (players : List PlayerSearchResult) (l : List PlayerInfo)
    (hps : cli.use_player_search = true)
    (hok : env.search_response = .ok players)
    (hl : lookupTeam (runMain cli env iter now) team = some l) :
    ∃ s, ((players.foldl (detailStep env cli.start_year cli.end_year) initBuckets) :
        List (String × List PlayerInfo)).lookup team = some s ∧
      l = List.insertionSort byName (iter team s) := by
  unfold runMain build_database_from_player_search at hl
  rw [hps, hok] at hl
  simp only [if_true, lookupTeam, producedTeams, Option.bind] at hl
  unfold finalizeTeams at hl
  rw [lookup_map_val (fun a b => List.insertionSort byName (iter a b))] at hl
  rcases Option.map_eq_some'.mp hl with ⟨s, hs, hls⟩
  exact ⟨s, hs, hls.symm⟩

/-- Configuration with an inverted (invalid) season range. -/
def cfgInverted : Cli := { cfgDefault with start_year := 2025, end_year := 2015 }

/-- Detail record used by the invalid-range counterexample. -/
def dJohn : PlayerDetails where
  player_id := 8
  first_name := "John"
  last_name := "Doe"
  birth_date := some "1990-01-01"
  birth_city := some "Toronto"
  birth_country := some "CAN"
  position := some "C"
  height_in_inches := some 72
  weight_in_pounds := some 200
  current_team_abbrev := some "VAN"
  season_totals := some [{ season := 20202021, team_name := some "Vancouver Canucks" }]

/-- Environment for the invalid-range counterexample: the search finds one
player and the detail request succeeds. -/
def envJohn : DirEnv where
  search_response := .ok [prJohn]
  details := fun _ => .ok dJohn

/-- C8 counterexample: with start_year 2025 greater than end_year 2015 the run
is not rejected at configuration level: it completes and produces an output
document, after issuing two outbound requests (the search plus one detail). -/
theorem invalid_range_counterexample :
    cfgInverted.end_year < cfgInverted.start_year ∧
    (producedTeams (runMain cfgInverted envJohn idIter "now")).isSome = true ∧
    runRequests cfgInverted envJohn = 2 := by
  refine ⟨by decide, ?_, by decide⟩
  rfl

/-- C8 as amended: an invalid season range is not a fatal configuration error;
the run proceeds, issues its outbound requests (always at least one), and every
team list of an output it produces is empty, because the empty range filters
out every season-totals entry. -/
theorem invalid_range_amended (cli : Cli) (env : DirEnv)
    (iter : String → List PlayerInfo → List PlayerInfo) (now : String)
    (hps : cli.use_player_search = true)
    (hrange : cli.end_year < cli.start_year)
    (hiter : ∀ t s, (iter t s).Perm s) :
    (∀ team l, lookupTeam (runMain cli env iter now) team = some l → l = []) ∧
    1 ≤ runRequests cli env := by
  constructor
  · intro team l hl
    cases hsr : env.search_response with
    | error e =>
      unfold runMain build_database_from_player_search at hl
      rw [hps, hsr] at hl
      simp [lookupTeam, producedTeams] at hl
    | ok players =>
      rcases lookupTeam_eq cli env iter now team players l hps hsr hl with ⟨s, hs, hls⟩
      have hdb : players.foldl (detailStep env cli.start_year cli.end_year) initBuckets =
          initBuckets := by
        refine foldl_preserve (P := fun b => b = initBuckets) _ _ _ rfl ?_
        intro pr _ c hc
        cases hd : env.details pr.player_id with
        | ok d =>
          simp only [detailStep, hd]
          rw [hc, processPlayer_id_of_invalid_range _ _ _ _ hrange]
        | error e => simpa [detailStep, hd] using hc
      rw [hdb] at hs
      have hs0 : s = [] := lookup_const_nil CURRENT_TEAM_CODES team s hs
      subst hs0
      have : iter team [] = [] := (hiter team []).eq_nil
      rw [this] at hls
      exact hls
  · unfold runRequests dirRequestCount
    rw [hps]
    cases env.search_response with
    | error e => exact le_refl 1
    | ok players => simp

/-- Witness for the amended C8 on the concrete inverted-range run. -/
theorem invalid_range_amended_witness :
    ([] : List PlayerInfo) = [] ∧ 1 ≤ runRequests cfgInverted envJohn :=
  ⟨(invalid_range_amended cfgInverted envJohn idIter "now" rfl (by decide)
      (fun _ s => List.Perm.refl s)).1 "VAN" [] (by decide),
   (invalid_range_amended cfgInverted envJohn idIter "now" rfl (by decide)
      (fun _ s => List.Perm.refl s)).2⟩

/-- Any code accumulated by the season-totals loop comes from an entry whose
start year is inside the configured range. -/
theorem mem_foldl_teamStep (start_year end_year : Nat) :
    ∀ (sts : List SeasonTotal) (acc : List String) (c : String),
      c ∈ sts.foldl (teamStep start_year end_year) acc →
      c ∈ acc ∨ ∃ st ∈ sts,
        (start_year ≤ seasonStartYear st.season ∧ seasonStartYear st.season ≤ end_year) ∧
        st.team_name.bind team_codes = some c := by
  intro sts
  induction sts with
  | nil => intro acc c hc; exact Or.inl hc
  | cons st sts ih =>
    intro acc c hc
    rw [List.foldl_cons] at hc
    rcases ih (teamStep start_year end_year acc st) c hc with hmem | ⟨st', hst', hr, hm⟩
    · unfold teamStep at hmem
      by_cases hrange :
          start_year ≤ seasonStartYear st.season ∧ seasonStartYear st.season ≤ end_year
      · rw [if_pos hrange] at hmem
        cases htn : st.team_name with
        | none => simp only [htn] at hmem; exact Or.inl hmem
        | some tn =>
          simp only [htn] at hmem
          cases hcode : team_codes tn with
          | none => simp only [hcode] at hmem; exact Or.inl hmem
          | some code =>
            simp only [hcode] at hmem
            by_cases hacc : code ∈ acc
            · rw [if_pos hacc] at hmem; exact Or.inl hmem
            · rw [if_neg hacc] at hmem
              rcases List.mem_append.mp hmem with hmem | hmem
              · exact Or.inl hmem
              · refine Or.inr ⟨st, by simp, hrange, ?_⟩
                rw [htn, Option.bind]
                rw [List.mem_singleton.mp hmem]
                exact hcode
      · rw [if_neg hrange] at hmem; exact Or.inl hmem
    · exact Or.inr ⟨st', by simp [hst'], hr, hm⟩

/-- C5: the start year of a season-totals entry is its season code divided by
10000 (so 20152016 yields 2015); only entries with start year inside
[start_year, end_year] contribute a team code, and a player all of whose
entries fall outside that range is added to no team bucket at all. -/
theorem season_filter_correct (d : PlayerDetails) (start_year end_year : Nat) :
    seasonStartYear 20152016 = 2015 ∧
    (∀ c ∈ playerTeams d start_year end_year, ∃ st ∈ d.season_totals.getD [],
      (start_year ≤ seasonStartYear st.season ∧ seasonStartYear st.season ≤ end_year) ∧
      st.team_name.bind team_codes = some c) ∧
    ((∀ st ∈ d.season_totals.getD [],
        ¬(start_year ≤ seasonStartYear st.season ∧ seasonStartYear st.season ≤ end_year)) →
      playerTeams d start_year end_year = [] ∧
      ∀ db, processPlayer db start_year end_year d = db) := by
  refine ⟨by decide, ?_, ?_⟩
  · intro c hc
    rcases mem_foldl_teamStep start_year end_year _ [] c hc with h | h
    · cases h
    · exact h
  · intro hout
    have hpt : playerTeams d start_year end_year = [] := by
      unfold playerTeams
      have : ∀ (sts : List SeasonTotal) (acc : List String),
          (∀ st ∈ sts,
            ¬(start_year ≤ seasonStartYear st.season ∧ seasonStartYear st.season ≤ end_year)) →
          sts.foldl (teamStep start_year end_year) acc = acc := by
        intro sts
        induction sts with
        | nil => intro acc _; rfl
        | cons st sts ih =>
          intro acc hsts
          rw [List.foldl_cons]
          have hst : teamStep start_year end_year acc st = acc := by
            unfold teamStep
            exact if_neg (hsts st (by simp))
          rw [hst]
          exact ih acc (fun st' hst' => hsts st' (by simp [hst']))
      exact this _ [] hout
    refine ⟨hpt, fun db => ?_⟩
    unfold processPlayer
    rw [hpt]
    rfl

/-- Detail record whose only season-totals entry lies outside [2015, 2025]. -/
def dOld : PlayerDetails where
  player_id := 9
  first_name := "Old"
  last_name := "Timer"
  birth_date := none
  birth_city := none
  birth_country := some "CAN"
  position := some "D"
  height_in_inches := none
  weight_in_pounds := none
  current_team_abbrev := none
  season_totals := some [{ season := 19901991, team_name := some "Boston Bruins" }]

/-- Witness for C5: a player whose only entry is the 1990-1991 season
contributes to no team bucket under the range [2015, 2025]. -/
theorem season_filter_correct_witness :
    playerTeams dOld 2015 2025 = [] ∧ processPlayer initBuckets 2015 2025 dOld = initBuckets :=
  ⟨((season_filter_correct dOld 2015 2025).2.2 (by decide)).1,
   ((season_filter_correct dOld 2015 2025).2.2 (by decide)).2 initBuckets⟩

/-- Invariant on the accumulating buckets: every bucket list is duplicate-free
and every record in it satisfies Q. -/
abbrev BucketsInv (Q : PlayerInfo → Prop) (db : Buckets) : Prop :=
  ∀ x ∈ db, x.2.Nodup ∧ ∀ p ∈ x.2, Q p

/-- Set insertion keeps a bucket duplicate-free. -/
theorem hsInsert_nodup {s : List PlayerInfo} {p : PlayerInfo} (h : s.Nodup) :
    (hsInsert s p).Nodup := by
  unfold hsInsert
  by_cases hp : p ∈ s
  · rw [if_pos hp]; exact h
  · rw [if_neg hp]
    simp [List.nodup_append, h, hp]

/-- Members of a bucket after a set insertion. -/
theorem mem_hsInsert {s : List PlayerInfo} {p q : PlayerInfo} (h : q ∈ hsInsert s p) :
    q ∈ s ∨ q = p := by
  unfold hsInsert at h
  by_cases hp : p ∈ s
  · rw [if_pos hp] at h; exact Or.inl h
  · rw [if_neg hp] at h
    rcases List.mem_append.mp h with h | h
    · exact Or.inl h
    · exact Or.inr (List.mem_singleton.mp h)

/-- Inserting a record satisfying Q preserves the buckets invariant. -/
theorem bucketsInsert_inv {Q : PlayerInfo → Prop} {db : Buckets} {t : String}
    {p : PlayerInfo} (h : BucketsInv Q db) (hp : Q p) :
    BucketsInv Q (bucketsInsert db t p) := by
  intro x hx
  rcases List.mem_map.mp hx with ⟨y, hy, hxy⟩
  rcases h y hy with ⟨hnd, hq⟩
  by_cases ht : y.1 = t
  · rw [if_pos ht] at hxy
    subst hxy
    refine ⟨hsInsert_nodup hnd, fun q hq' => ?_⟩
    rcases mem_hsInsert hq' with h' | h'
    · exact hq q h'
    · rw [h']; exact hp
  · rw [if_neg ht] at hxy
    subst hxy
    exact ⟨hnd, hq⟩

/-- Processing a player whose record satisfies Q preserves the invariant. -/
theorem processPlayer_inv {Q : PlayerInfo → Prop} {db : Buckets}
    {start_year end_year : Nat} {d : PlayerDetails}
    (h : BucketsInv Q db) (hp : Q (mkPlayerInfo d)) :
    BucketsInv Q (processPlayer db start_year end_year d) := by
  unfold processPlayer
  refine foldl_preserve (P := BucketsInv Q) _ _ db h ?_
  intro code _ c hc
  cases hm : get_team_mapping code with
  | none => simpa [hm] using hc
  | some cur =>
    simp only [hm]
    exact bucketsInsert_inv hc hp

/-- The initial buckets satisfy every elementwise invariant. -/
theorem initBuckets_inv (Q : PlayerInfo → Prop) : BucketsInv Q initBuckets := by
  intro x hx
  rcases List.mem_map.mp hx with ⟨t, _, hxt⟩
  rw [← hxt]
  exact ⟨List.nodup_nil, fun p hp => absurd hp (List.not_mem_nil p)⟩

/-- Space taken by `Nat.toDigitsCore` never shrinks. -/
theorem length_le_toDigitsCore (b : Nat) :
    ∀ (fuel n : Nat) (ds : List Char), ds.length ≤ (Nat.toDigitsCore b fuel n ds).length
  | 0, _, _ => le_refl _
  | fuel + 1, n, ds => by
    unfold Nat.toDigitsCore
    by_cases h : n / b = 0
    · simp [h]
    · simp only [h, if_false]
      calc ds.length ≤ ((n % b).digitChar :: ds).length := by simp
        _ ≤ _ := length_le_toDigitsCore b fuel (n / b) _

/-- Decimal digit lists are never empty. -/
theorem toDigits_length_pos (n : Nat) : 0 < (Nat.toDigits 10 n).length := by
  unfold Nat.toDigits Nat.toDigitsCore
  by_cases h : n / 10 = 0
  · simp [h]
  · simp only [h, if_false]
    exact lt_of_lt_of_le (by simp)
      (length_le_toDigitsCore 10 n (n / 10) [(n % 10).digitChar])

/-- The decimal rendering of a natural number is never the empty string. -/
theorem repr_ne_empty (n : Nat) : Nat.repr n ≠ "" := by
  intro h
  have hpos := toDigits_length_pos n
  unfold Nat.repr at h
  have hdata := congrArg String.data h
  simp only [List.asString] at hdata
  rw [hdata] at hpos
  cases hpos

/-- A record is, field for field, one built from a detail record that the
environment returned for some player found by the directory search. -/
def fromDetailRecord (env : DirEnv) (players : List PlayerSearchResult)
    (p : PlayerInfo) : Bool :=
  players.any fun pr =>
    match env.details pr.player_id with
    | .ok d => decide (p.id = Nat.repr d.player_id ∧
        p.name = d.first_name ++ " " ++ d.last_name)
    | .error _ => false

/-- C10: every player entry placed in a team list of a directory-mode run has a
non-empty id (the decimal rendering of the numeric playerId of a fetched detail
record) and the name composed as first name, a space, and last name of that
record. -/
theorem directory_entry_id_name (cli : Cli) (env : DirEnv)
    (iter : String → List PlayerInfo → List PlayerInfo) (now team : String)
    (players : List PlayerSearchResult) (l : List PlayerInfo) (p : PlayerInfo)
    (hps : cli.use_player_search = true)
    (hiter : ∀ t s, (iter t s).Perm s)
    (hok : env.search_response = .ok players)
    (hl : lookupTeam (runMain cli env iter now) team = some l)
    (hp : p ∈ l) :
    p.id ≠ "" ∧ fromDetailRecord env players p = true := by
  rcases lookupTeam_eq cli env iter now team players l hps hok hl with ⟨s, hs, hls⟩
  have hinv : BucketsInv
      (fun q => q.id ≠ "" ∧ fromDetailRecord env players q = true)
      (players.foldl (detailStep env cli.start_year cli.end_year) initBuckets) := by
    have hsub : ∀ (sub : List PlayerSearchResult), (∀ pr ∈ sub, pr ∈ players) →
        BucketsInv (fun q => q.id ≠ "" ∧ fromDetailRecord env players q = true)
          (sub.foldl (detailStep env cli.start_year cli.end_year) initBuckets) := by
      intro sub hsubmem
      refine foldl_preserve
        (P := BucketsInv (fun q => q.id ≠ "" ∧ fromDetailRecord env players q = true))
        _ _ _ (initBuckets_inv _) ?_
      intro pr hpr c hc
      cases hd : env.details pr.player_id with
      | ok d =>
        simp only [detailStep, hd]
        refine processPlayer_inv hc ⟨repr_ne_empty d.player_id, ?_⟩
        refine List.any_eq_true.mpr ⟨pr, hsubmem pr hpr, ?_⟩
        rw [hd]
        simp [mkPlayerInfo]
      | error e => simpa [detailStep, hd] using hc
    exact hsub players (fun _ h => h)
  have hmem : (team, s) ∈ (players.foldl (detailStep env cli.start_year cli.end_year)
      initBuckets : List (String × List PlayerInfo)) := by
    clear hinv hls hl hp
    generalize (players.foldl (detailStep env cli.start_year cli.end_year) initBuckets :
      List (String × List PlayerInfo)) = db at hs ⊢
    induction db with
    | nil => cases hs
    | cons x xs ih =>
      obtain ⟨k, v⟩ := x
      rw [List.lookup] at hs
      by_cases hk : (team == k) = true
      · rw [hk] at hs
        cases hs
        have : team = k := by simpa using hk
        rw [this]
        exact List.mem_cons_self _ _
      · rw [Bool.not_eq_true] at hk
        rw [hk] at hs
        exact List.mem_cons_of_mem _ (ih hs)
  have hq := (hinv (team, s) hmem).2
  have hpmem : p ∈ s := by
    have h₁ : p ∈ iter team s :=
      (List.perm_insertionSort byName (iter team s)).mem_iff.mp (hls ▸ hp)
    exact (hiter team s).mem_iff.mp h₁
  exact hq p hpmem

/-- Environment whose search finds John Doe and whose detail request returns
his full record. -/
def envJohnFull : DirEnv where
  search_response := .ok [prJohn]
  details := fun pid => if pid = "1" then .ok dJohn else .error "HTTP 404"

/-- Witness for C10: the single produced entry for VAN has the rendered id "8"
and composed name "John Doe". -/
theorem directory_entry_id_name_witness :
    (mkPlayerInfo dJohn).id ≠ "" ∧
    fromDetailRecord envJohnFull [prJohn] (mkPlayerInfo dJohn) = true :=
  directory_entry_id_name cfgDefault envJohnFull idIter "now" "VAN" [prJohn]
    [mkPlayerInfo dJohn] (mkPlayerInfo dJohn) rfl (fun _ s => List.Perm.refl s) rfl
    (by decide) (by decide)

/-- Detail record of the first "Sebastian Aho" (playerId 8, Carolina). -/
def dAho1 : PlayerDetails where
  player_id := 8
  first_name := "Sebastian"
  last_name := "Aho"
  birth_date := some "1997-07-26"
  birth_city := some "Rauma"
  birth_country := some "FIN"
  position := some "C"
  height_in_inches := some 72
  weight_in_pounds := some 176
  current_team_abbrev := some "CAR"
  season_totals := some [{ season := 20202021, team_name := some "Carolina Hurricanes" }]

/-- Detail record returned for a distinct directory row but carrying the same
playerId 8 and the same name, differing in birth date. -/
def dAho2 : PlayerDetails where
  player_id := 8
  first_name := "Sebastian"
  last_name := "Aho"
  birth_date := some "1996-02-17"
  birth_city := some "Umeå"
  birth_country := some "SWE"
  position := some "D"
  height_in_inches := some 71
  weight_in_pounds := some 174
  current_team_abbrev := some "CAR"
  season_totals := some [{ season := 20202021, team_name := some "Carolina Hurricanes" }]

/-- Environment where the directory returns two rows whose detail responses
carry the same playerId but differ in other fields. -/
def envAho : DirEnv where
  search_response := .ok
    [{ player_id := "1", name := "Sebastian Aho", position_code := "C",
       last_season_id := none, active := true },
     { player_id := "2", name := "Sebastian Aho", position_code := "D",
       last_season_id := none, active := true }]
  details := fun pid =>
    if pid = "1" then .ok dAho1 else if pid = "2" then .ok dAho2 else .error "HTTP 404"

/-- C4 counterexample: the CAR list of this run holds two distinct entries
with equal §3 identity (equal non-empty ids), because the code deduplicates
by equality of the whole record, not by §3 identity. -/
theorem team_list_identity_counterexample :
    lookupTeam (runMain cfgDefault envAho idIter "now") "CAR" =
      some [mkPlayerInfo dAho1, mkPlayerInfo dAho2] ∧
    sameIdentity (mkPlayerInfo dAho1) (mkPlayerInfo dAho2) = true ∧
    mkPlayerInfo dAho1 ≠ mkPlayerInfo dAho2 := by
  refine ⟨by decide, by decide, by decide⟩

/-- C4 as amended: in every team's player list of the produced database, no
two entries are equal as complete records (the deduplication is by equality of
the whole record; two entries agreeing on id — hence on §3 identity — may
co-occur when another field differs), and the entries are sorted ascending,
non-strictly, by display name. -/
theorem team_list_nodup_sorted (cli : Cli) (env : DirEnv)
    (iter : String → List PlayerInfo → List PlayerInfo) (now team : String)
    (l : List PlayerInfo)
    (hps : cli.use_player_search = true)
    (hiter : ∀ t s, (iter t s).Perm s)
    (hl : lookupTeam (runMain cli env iter now) team = some l) :
    l.Pairwise (fun a b => a ≠ b) ∧ l.Sorted byName := by
  cases hsr : env.search_response with
  | error e =>
    unfold runMain build_database_from_player_search at hl
    rw [hps, hsr] at hl
    simp [lookupTeam, producedTeams] at hl
  | ok players =>
    rcases lookupTeam_eq cli env iter now team players l hps hsr hl with ⟨s, hs, hls⟩
    have hinv : BucketsInv (fun _ => True)
        (players.foldl (detailStep env cli.start_year cli.end_year) initBuckets) := by
      refine foldl_preserve (P := BucketsInv (fun _ => True)) _ _ _ (initBuckets_inv _) ?_
      intro pr _ c hc
      cases hd : env.details pr.player_id with
      | ok d =>
        simp only [detailStep, hd]
        exact processPlayer_inv hc trivial
      | error e => simpa [detailStep, hd] using hc
    have hmem : (team, s) ∈ players.foldl (detailStep env cli.start_year cli.end_year)
        initBuckets := by
      clear hinv hls hl
      generalize players.foldl (detailStep env cli.start_year cli.end_year) initBuckets = db
        at hs ⊢
      induction db with
      | nil => cases hs
      | cons x xs ih =>
        obtain ⟨k, v⟩ := x
        rw [List.lookup] at hs
        by_cases hk : (team == k) = true
        · rw [hk] at hs
          cases hs
          have : team = k := by simpa using hk
          rw [this]
          exact List.mem_cons_self _ _
        · rw [Bool.not_eq_true] at hk
          rw [hk] at hs
          exact List.mem_cons_of_mem _ (ih hs)
    have hnd : s.Nodup := (hinv (team, s) hmem).1
    have hnd₁ : (iter team s).Nodup := ((hiter team s).symm.nodup_iff).mp hnd
    have hndl : l.Nodup := by
      rw [hls]
      exact ((List.perm_insertionSort byName (iter team s)).nodup_iff).mpr hnd₁
    refine ⟨hndl, ?_⟩
    rw [hls]
    exact List.sorted_insertionSort byName (iter team s)

/-- Witness for the amended C4 on the Sebastian Aho run: its CAR list is
duplicate-free as records and sorted by name. -/
theorem team_list_nodup_sorted_witness :
    List.Pairwise (fun a b => a ≠ b) [mkPlayerInfo dAho1, mkPlayerInfo dAho2] ∧
    List.Sorted byName [mkPlayerInfo dAho1, mkPlayerInfo dAho2] :=
  team_list_nodup_sorted cfgDefault envAho idIter "now" "CAR"
    [mkPlayerInfo dAho1, mkPlayerInfo dAho2] rfl (fun _ s => List.Perm.refl s) (by decide)

/-- Detail record of the first Elias Pettersson (distinct id, same name). -/
def dEP1 : PlayerDetails where
  player_id := 1001
  first_name := "Elias"
  last_name := "Pettersson"
  birth_date := some "1998-11-12"
  birth_city := some "Sundsvall"
  birth_country := some "SWE"
  position := some "C"
  height_in_inches := some 74
  weight_in_pounds := some 176
  current_team_abbrev := some "VAN"
  season_totals := some [{ season := 20232024, team_name := some "Vancouver Canucks" }]

/-- Detail record of the second Elias Pettersson (distinct id, same name). -/
def dEP2 : PlayerDetails where
  player_id := 1002
  first_name := "Elias"
  last_name := "Pettersson"
  birth_date := some "2004-02-03"
  birth_city := some "Västerås"
  birth_country := some "SWE"
  position := some "D"
  height_in_inches := some 74
  weight_in_pounds := some 194
  current_team_abbrev := some "VAN"
  season_totals := some [{ season := 20232024, team_name := some "Vancouver Canucks" }]

/-- Environment whose directory holds two distinct players sharing one display
name on the same franchise. -/
def envEP : DirEnv where
  search_response := .ok
    [{ player_id := "1001", name := "Elias Pettersson", position_code := "C",
       last_season_id := none, active := true },
     { player_id := "1002", name := "Elias Pettersson", position_code := "D",
       last_season_id := none, active := true }]
  details := fun pid =>
    if pid = "1001" then .ok dEP1 else if pid = "1002" then .ok dEP2 else .error "HTTP 404"

/-- C9 counterexample: over identical responses and configuration, two runs
differing only in the unspecified HashSet enumeration order produce different
VAN lists entry for entry, because the stable sort preserves the enumeration
order of the two distinct records sharing one display name. -/
theorem determinism_counterexample :
    lookupTeam (runMain cfgDefault envEP idIter "now") "VAN" =
      some [mkPlayerInfo dEP1, mkPlayerInfo dEP2] ∧
    lookupTeam (runMain cfgDefault envEP revIter "now") "VAN" =
      some [mkPlayerInfo dEP2, mkPlayerInfo dEP1] ∧
    mkPlayerInfo dEP1 ≠ mkPlayerInfo dEP2 := by
  refine ⟨by decide, by decide, by decide⟩

/-- C9 as amended: two runs over identical fixed responses and configuration
produce teams content with the same key list and, for each key, the same
records up to order — the lists are permutations of each other and their
display-name sequences coincide; only the relative order of distinct records
sharing a display name can differ between runs. -/
theorem determinism_amended (cli : Cli) (env : DirEnv)
    (iter₁ iter₂ : String → List PlayerInfo → List PlayerInfo) (now₁ now₂ : String)
    (h₁ : ∀ t s, (iter₁ t s).Perm s) (h₂ : ∀ t s, (iter₂ t s).Perm s) :
    (producedTeams (runMain cli env iter₁ now₁)).map (List.map Prod.fst) =
      (producedTeams (runMain cli env iter₂ now₂)).map (List.map Prod.fst) ∧
    ∀ team l₁ l₂, lookupTeam (runMain cli env iter₁ now₁) team = some l₁ →
      lookupTeam (runMain cli env iter₂ now₂) team = some l₂ →
      l₁.Perm l₂ ∧ l₁.map PlayerInfo.name = l₂.map PlayerInfo.name := by
  by_cases hps : cli.use_player_search = true
  · cases hsr : env.search_response with
    | error e =>
      constructor
      · unfold runMain build_database_from_player_search
        rw [hps, hsr]
      · intro team l₁ l₂ hl₁ _
        unfold runMain build_database_from_player_search at hl₁
        rw [hps, hsr] at hl₁
        simp [lookupTeam, producedTeams] at hl₁
    | ok players =>
      constructor
      · unfold runMain build_database_from_player_search
        rw [hps, hsr]
        simp only [if_true, producedTeams]
        rw [Option.map_some', Option.map_some', finalizeTeams_keys, finalizeTeams_keys]
      · intro team l₁ l₂ hl₁ hl₂
        rcases lookupTeam_eq cli env iter₁ now₁ team players l₁ hps hsr hl₁ with ⟨s₁, hs₁, hd₁⟩
        rcases lookupTeam_eq cli env iter₂ now₂ team players l₂ hps hsr hl₂ with ⟨s₂, hs₂, hd₂⟩
        have hss : s₁ = s₂ := Option.some.inj (hs₁.symm.trans hs₂)
        subst hss
        have hp₁ : l₁.Perm (iter₁ team s₁) := hd₁ ▸ List.perm_insertionSort byName _
        have hp₂ : l₂.Perm (iter₂ team s₁) := hd₂ ▸ List.perm_insertionSort byName _
        have hperm : l₁.Perm l₂ :=
          (hp₁.trans (h₁ team s₁)).trans ((hp₂.trans (h₂ team s₁)).symm)
        refine ⟨hperm, ?_⟩
        have hsort₁ : List.Sorted byName l₁ := hd₁ ▸ List.sorted_insertionSort byName _
        have hsort₂ : List.Sorted byName l₂ := hd₂ ▸ List.sorted_insertionSort byName _
        have hns₁ : List.Sorted nameLe (l₁.map PlayerInfo.name) :=
          List.Pairwise.map PlayerInfo.name (fun a b h => h) hsort₁
        have hns₂ : List.Sorted nameLe (l₂.map PlayerInfo.name) :=
          List.Pairwise.map PlayerInfo.name (fun a b h => h) hsort₂
        exact List.eq_of_perm_of_sorted (hperm.map PlayerInfo.name) hns₁ hns₂
  · rw [Bool.not_eq_true] at hps
    constructor
    · unfold runMain
      rw [hps]
      rfl
    · intro team l₁ l₂ hl₁ _
      unfold runMain at hl₁
      rw [hps] at hl₁
      simp [lookupTeam, producedTeams] at hl₁

/-- Witness for the amended C9 on the two Elias Pettersson runs. -/
theorem determinism_amended_witness :
    List.Perm [mkPlayerInfo dEP1, mkPlayerInfo dEP2] [mkPlayerInfo dEP2, mkPlayerInfo dEP1] ∧
    [mkPlayerInfo dEP1, mkPlayerInfo dEP2].map PlayerInfo.name =
      [mkPlayerInfo dEP2, mkPlayerInfo dEP1].map PlayerInfo.name :=
  (determinism_amended cfgDefault envEP idIter revIter "now" "now"
      (fun _ s => List.Perm.refl s) (fun _ s => List.reverse_perm s)).2
    "VAN" [mkPlayerInfo dEP1, mkPlayerInfo dEP2] [mkPlayerInfo dEP2, mkPlayerInfo dEP1]
    (by decide) (by decide)

end Journeyman
